import Mathlib

/-!
# samaritan / api / okcoin.cn.go

A shallow embedding of the OKCoin.cn exchange client (`src/api/okcoin.cn.go`).

Conventions of the embedding.

* Go `float64` values are rationals (`ℚ`). The client compares prices with `0`
  and copies them around; its one computation on them, the midpoint of the
  ticker, goes through the operations `Env.add64` and `Env.div64`, so nothing is
  assumed about rounding. NaN is not modelled.
* Go `int`/`int64` values are `Int`; the client never adds or multiplies them, the
  only arithmetic is the truncating division of a millisecond stamp by 1000.
* A Go map is an association list, read with `mapHas` (the `_, ok := m[k]` form)
  and `mapGet` (the `m[k]` form, the zero value for a missing key).
* Everything the file calls but does not define is a field of `Env`: the HTTP
  transport (`get`, `post`), `signMd5`, `simplejson.NewJson`, `strings.ToUpper`,
  `fmt.Sprint` on a float, the minute formatting of a Unix time and the
  `float64` addition and division.
* A decoded JSON document is seen through the accessors the client applies to
  it (`Json`): every accessor used is a total `Must…` accessor, so the document
  is exactly the tuple of values those accessors return.
* Every operation returns the list of `Event`s it performed (transport calls,
  log records, console prints) next to its Go return value.
* A Go run-time panic (index out of range, slice bounds out of range) is `none`.
* `GetAccount` and `Log` only decode and print; no statement below is about
  them and they are left out.
-/

namespace api

/-! ## Domain types (declared in the package, used by `okcoin.cn.go`) -/

/-- The `Option` struct handed to `NewOKCoinCn` (field `Type` is `TypeName`). -/
structure ExchangeOption where
  TypeName : String
  AccessKey : String
  SecretKey : String
  MainStock : String
  deriving DecidableEq, Repr

/-- A candlestick. -/
structure Record where
  Time : Int
  Open : ℚ
  High : ℚ
  Low : ℚ
  Close : ℚ
  Volume : ℚ
  deriving DecidableEq, Repr

/-- An order as reported by the exchange. -/
structure Order where
  ID : String
  Price : ℚ
  Amount : ℚ
  DealAmount : ℚ
  OrderType : Int
  StockType : String
  deriving DecidableEq, Repr

/-- One level of the order book. -/
structure MarketOrder where
  Price : ℚ
  Amount : ℚ
  deriving DecidableEq, Repr

/-- The market ticker built from a depth snapshot. -/
structure Ticker where
  Bids : List MarketOrder
  Asks : List MarketOrder
  Buy : ℚ
  Sell : ℚ
  Mid : ℚ
  deriving DecidableEq, Repr

/-! ## Decoded documents -/

/-- One entry of the `orders` array: `order_id` is
`fmt.Sprint(orderJSON.Get("order_id").Interface())`, the numeric fields are the
`MustFloat64` values and `type` the `MustString` value. -/
structure OrderJSON where
  order_id : String
  price : ℚ
  amount : ℚ
  deal_amount : ℚ
  type : String
  deriving DecidableEq, Repr

/-- One entry of the kline array: `stamp` is `GetIndex(0).MustInt64()` (epoch
milliseconds), the other fields are `GetIndex(1..5).MustFloat64()`. -/
structure RecordJSON where
  stamp : Int
  open_ : ℚ
  high : ℚ
  low : ℚ
  close : ℚ
  volume : ℚ
  deriving DecidableEq, Repr

/-- A decoded document as the client observes it. -/
structure Json where
  /-- The value of `Get("result").MustBool()`. -/
  result : Bool
  /-- The value of `Get("error_code").MustInt()`. -/
  error_code : Int
  /-- The value of `Get("order_id").MustString()`. -/
  order_id : String
  /-- The entries of `Get("orders").MustArray()`. -/
  orders : List OrderJSON
  /-- The entries of `Get("bids").MustArray()` as (price, amount). -/
  bids : List (ℚ × ℚ)
  /-- The entries of `Get("asks").MustArray()` as (price, amount). -/
  asks : List (ℚ × ℚ)
  /-- The entries of `json.MustArray()` for a kline document. -/
  array : List RecordJSON
  deriving DecidableEq, Repr

/-! ## Collaborators -/

/-- The functions `okcoin.cn.go` calls without defining them. -/
structure Env where
  /-- The package function `get(url)`: the body or an error. -/
  get : String → Except String String
  /-- The package function `post(url, params)`: the body or an error. -/
  post : String → List String → Except String String
  /-- The package function `signMd5(params)`. -/
  signMd5 : List String → String
  /-- The library function `simplejson.NewJson(body)`. -/
  NewJson : String → Except String Json
  /-- The library function `strings.ToUpper`. -/
  ToUpper : String → String
  /-- The text `fmt.Sprint` prints for a `float64`. -/
  Sprint : ℚ → String
  /-- The number `conver.Int64Must(time.Unix(sec, 0).Format("200601021504"))`. -/
  minuteKey : Int → Int
  /-- The `float64` sum `a + b`, rounded as the machine rounds it. -/
  add64 : ℚ → ℚ → ℚ
  /-- The `float64` quotient `a / b`, rounded as the machine rounds it. -/
  div64 : ℚ → ℚ → ℚ

/-- What an operation did to the outside world. -/
inductive Event where
  | get (url : String)
  | post (url : String) (params : List String)
  | log (level : String) (price amount : ℚ)
  | println (n : Nat)
  deriving DecidableEq, Repr

/-- True for the two transport events. -/
def Event.isTransport : Event → Bool
  | .get _ => true
  | .post _ _ => true
  | _ => false

/-! ## The exchange -/

/-- The form `_, ok := m[k]`. -/
def mapHas {β : Type} (m : List (String × β)) (k : String) : Bool :=
  (m.lookup k).isSome

/-- The form `m[k]`: the zero value when the key is missing. -/
def mapGet {β : Type} [Inhabited β] (m : List (String × β)) (k : String) : β :=
  (m.lookup k).getD default

/-- The struct `OKCoinCn` (the logger is an `Event` sink). -/
structure OKCoinCn where
  stockMap : List (String × String)
  orderTypeMap : List (String × Int)
  periodMap : List (String × String)
  records : String → List Record
  host : String
  option : ExchangeOption

/-- The constructor `NewOKCoinCn`. -/
def NewOKCoinCn (opt : ExchangeOption) : OKCoinCn :=
  let stockMap := [("BTC", "btc"), ("LTC", "ltc")]
  { stockMap := stockMap
    orderTypeMap := [("buy", 1), ("sell", -1), ("buy_market", 2), ("sell_market", -2)]
    periodMap := [("M", "1min"), ("M5", "5min"), ("M15", "15min"), ("M30", "30min"),
      ("H", "1hour"), ("D", "1day"), ("W", "1week")]
    records := fun _ => []
    host := "https://www.okcoin.cn/api/v1/"
    option := if mapHas stockMap opt.MainStock then opt else { opt with MainStock := "BTC" } }

/-- The comparison `a <= b` of Go strings, on their characters: the byte-wise
order of UTF-8 text is the order of its code points. -/
def bytesLE : List Char → List Char → Bool
  | [], _ => true
  | _ :: _, [] => false
  | a :: as, b :: bs => if a < b then true else if b < a then false else bytesLE as bs

/-- The order `sort.Strings` sorts by. -/
def stringLE (a b : String) : Prop :=
  bytesLE a.data b.data = true

instance : DecidableRel stringLE :=
  fun a b => inferInstanceAs (Decidable (bytesLE a.data b.data = true))

/-- The call `sort.Strings`: the ascending arrangement of the list. -/
def sortStrings (params : List String) : List String :=
  params.insertionSort stringLE

/-- The list `getAuthJSON` has built when it reaches `post`. -/
def getAuthJSON.params (env : Env) (e : OKCoinCn) (params : List String) : List String :=
  let params := params ++ ["api_key=" ++ e.option.AccessKey]
  let params := sortStrings params
  let params := params ++ ["secret_key=" ++ e.option.SecretKey]
  params ++ ["sign=" ++ env.ToUpper (env.signMd5 params)]

/-- The method `getAuthJSON`. -/
def getAuthJSON (env : Env) (e : OKCoinCn) (url : String) (params : List String) :
    List Event × Except String Json :=
  let params := getAuthJSON.params env e params
  ([Event.post url params],
    match env.post url params with
    | .error err => .error err
    | .ok resp => env.NewJson resp)

/-- The method `GetMainStock`. -/
def GetMainStock (e : OKCoinCn) : String :=
  e.option.MainStock

/-- The method `SetMainStock`: the updated exchange and the returned stock. -/
def SetMainStock (e : OKCoinCn) (stock : String) : OKCoinCn × String :=
  let e := if mapHas e.stockMap stock then
    { e with option := { e.option with MainStock := stock } } else e
  (e, e.option.MainStock)

/-! ## Order service -/

/-- The parameter list `Buy` passes to `getAuthJSON` once the stock is accepted. -/
def Buy.params (env : Env) (e : OKCoinCn) (stockType : String) (price amount : ℚ) :
    List String :=
  let params := ["symbol=" ++ mapGet e.stockMap stockType ++ "_cny"]
  let typeParam := "type=buy_market"
  let amountParam := "price=" ++ env.Sprint amount
  if price > 0 then
    let typeParam := "type=buy"
    let amountParam := "amount=" ++ env.Sprint amount
    let params := params ++ ["price=" ++ env.Sprint price]
    params ++ [typeParam, amountParam]
  else
    params ++ [typeParam, amountParam]

/-- The method `Buy`: the order id, the empty string on failure. -/
def Buy (env : Env) (e : OKCoinCn) (stockType : String) (price amount : ℚ) :
    List Event × String :=
  if ¬ mapHas e.stockMap stockType then
    ([Event.log "error" 0 0], "")
  else
    let (evs, r) := getAuthJSON env e (e.host ++ "trade.do")
      (Buy.params env e stockType price amount)
    match r with
    | .error _ => (evs ++ [Event.log "error" 0 0], "")
    | .ok json =>
      if ¬ json.result then (evs ++ [Event.log "error" 0 0], "")
      else (evs ++ [Event.log "buy" price amount], json.order_id)

/-- The parameter list `Sell` passes to `getAuthJSON` once the stock is accepted. -/
def Sell.params (env : Env) (e : OKCoinCn) (stockType : String) (price amount : ℚ) :
    List String :=
  let params := ["symbol=" ++ mapGet e.stockMap stockType ++ "_cny",
    "amount=" ++ env.Sprint amount]
  let typeParam := "type=sell_market"
  if price > 0 then
    let typeParam := "type=sell"
    let params := params ++ ["price=" ++ env.Sprint price]
    params ++ [typeParam]
  else
    params ++ [typeParam]

/-- The method `Sell`: the order id, the empty string on failure. -/
def Sell (env : Env) (e : OKCoinCn) (stockType : String) (price amount : ℚ) :
    List Event × String :=
  if ¬ mapHas e.stockMap stockType then
    ([Event.log "error" 0 0], "")
  else
    let (evs, r) := getAuthJSON env e (e.host ++ "trade.do")
      (Sell.params env e stockType price amount)
    match r with
    | .error _ => (evs ++ [Event.log "error" 0 0], "")
    | .ok json =>
      if ¬ json.result then (evs ++ [Event.log "error" 0 0], "")
      else (evs ++ [Event.log "sell" price amount], json.order_id)

/-- The `Order` literal built from one entry of the `orders` array. -/
def orderOf (e : OKCoinCn) (stockType : String) (orderJSON : OrderJSON) : Order :=
  { ID := orderJSON.order_id
    Price := orderJSON.price
    Amount := orderJSON.amount
    DealAmount := orderJSON.deal_amount
    OrderType := mapGet e.orderTypeMap orderJSON.type
    StockType := stockType }

/-- The method `GetOrder`: the order, `none` for Go's `nil`. -/
def GetOrder (env : Env) (e : OKCoinCn) (stockType id : String) :
    List Event × Option Order :=
  let params := ["symbol=" ++ mapGet e.stockMap stockType ++ "_cny", "order_id=" ++ id]
  let (evs, r) := getAuthJSON env e (e.host ++ "order_info.do") params
  match r with
  | .error _ => (evs ++ [Event.log "error" 0 0], none)
  | .ok json =>
    if ¬ json.result then (evs ++ [Event.log "error" 0 0], none)
    else
      match json.orders with
      | orderJSON :: _ => (evs, some (orderOf e stockType orderJSON))
      | [] => (evs, none)

/-- The method `CancelOrder`. -/
def CancelOrder (env : Env) (e : OKCoinCn) (order : Order) : List Event × Bool :=
  let params := ["symbol=" ++ mapGet e.stockMap order.StockType ++ "_cny",
    "order_id=" ++ order.ID]
  let (evs, r) := getAuthJSON env e (e.host ++ "cancel_order.do") params
  match r with
  | .error _ => (evs ++ [Event.log "error" 0 0], false)
  | .ok json =>
    if ¬ json.result then (evs ++ [Event.log "error" 0 0], false)
    else (evs ++ [Event.log "cancel" 0 0], true)

/-- The method `GetOrders`: the unfilled orders, `[]` for Go's nil slice. -/
def GetOrders (env : Env) (e : OKCoinCn) (stockType : String) : List Event × List Order :=
  if ¬ mapHas e.stockMap stockType then
    ([Event.log "error" 0 0], [])
  else
    let params := ["symbol=" ++ mapGet e.stockMap stockType ++ "_cny", "order_id=-1"]
    let (evs, r) := getAuthJSON env e (e.host ++ "order_info.do") params
    match r with
    | .error _ => (evs ++ [Event.log "error" 0 0], [])
    | .ok json =>
      if ¬ json.result then (evs ++ [Event.log "error" 0 0], [])
      else (evs, json.orders.map (orderOf e stockType))

/-- The method `GetTrades`: the recently filled orders. -/
def GetTrades (env : Env) (e : OKCoinCn) (stockType : String) : List Event × List Order :=
  if ¬ mapHas e.stockMap stockType then
    ([Event.log "error" 0 0], [])
  else
    let params := ["symbol=" ++ mapGet e.stockMap stockType ++ "_cny", "status=1",
      "current_page=1", "page_length=200"]
    let (evs, r) := getAuthJSON env e (e.host ++ "order_history.do") params
    match r with
    | .error _ => (evs ++ [Event.log "error" 0 0], [])
    | .ok json =>
      if ¬ json.result then (evs ++ [Event.log "error" 0 0], [])
      else (evs, json.orders.map (orderOf e stockType))

/-! ## Market data service -/

/-- The `MarketOrder` literal built from one depth entry. -/
def marketOrderOf (depthJSON : ℚ × ℚ) : MarketOrder :=
  { Price := depthJSON.1, Amount := depthJSON.2 }

/-- The depth of `GetTicker`: 20 unless the first optional argument is larger. -/
def GetTicker.size (sizes : List Int) : Int :=
  match sizes with
  | s :: _ => if s > 20 then s else 20
  | [] => 20

/-- The address `GetTicker` requests. -/
def GetTicker.url (e : OKCoinCn) (stockType : String) (sizes : List Int) : String :=
  e.host ++ "depth.do?symbol=" ++ mapGet e.stockMap stockType ++ "_cny&size="
    ++ toString (GetTicker.size sizes)

/-- The method `GetTicker`: the ticker, `none` for Go's `nil`. -/
def GetTicker (env : Env) (e : OKCoinCn) (stockType : String) (sizes : List Int) :
    List Event × Option Ticker :=
  if ¬ mapHas e.stockMap stockType then
    ([Event.log "error" 0 0], none)
  else
    let url := GetTicker.url e stockType sizes
    match env.get url with
    | .error _ => ([Event.get url, Event.log "error" 0 0], none)
    | .ok resp =>
      match env.NewJson resp with
      | .error _ => ([Event.get url, Event.log "error" 0 0], none)
      | .ok json =>
        -- the first loop walks `bids` upwards, the second walks `asks` downwards
        let Bids := json.bids.map marketOrderOf
        let Asks := json.asks.reverse.map marketOrderOf
        match Bids, Asks with
        | bid :: _, ask :: _ =>
          ([Event.get url], some
            { Bids := Bids, Asks := Asks, Buy := bid.Price, Sell := ask.Price,
              Mid := env.div64 (env.add64 bid.Price ask.Price) 2 })
        | _, _ => ([Event.get url, Event.log "error" 0 0], none)

/-- The `Record` literal built from one kline entry. -/
def recordOf (env : Env) (recordJSON : RecordJSON) : Record :=
  { Time := env.minuteKey (Int.tdiv recordJSON.stamp 1000)
    Open := recordJSON.open_
    High := recordJSON.high
    Low := recordJSON.low
    Close := recordJSON.close
    Volume := recordJSON.volume }

/-- The assignment `cache[len(cache)-1] = r`: a panic on an empty slice. -/
def setLast (cache : List Record) (r : Record) : Option (List Record) :=
  match cache with
  | [] => none
  | _ :: _ => some (cache.dropLast ++ [r])

/-- The loop of `GetRecords` over the entries still to visit, newest first: the
state is the cached slice and `recordsNew`; `some` at `break` and at the end of
the series, `none` when the overwrite panics. -/
def GetRecords.scan (env : Env) (timeLast : Int) :
    List RecordJSON → List Record → List Record → Option (List Record × List Record)
  | [], cache, recordsNew => some (cache, recordsNew)
  | recordJSON :: rest, cache, recordsNew =>
    let recordTime := env.minuteKey (Int.tdiv recordJSON.stamp 1000)
    if recordTime > timeLast then
      GetRecords.scan env timeLast rest cache (recordsNew ++ [recordOf env recordJSON])
    else if recordTime = timeLast then
      match setLast cache (recordOf env recordJSON) with
      | none => none
      | some cache => GetRecords.scan env timeLast rest cache recordsNew
    else
      some (cache, recordsNew)

/-- The slice expression `s[:size]` guarded by `len(s) > size`. -/
def truncate (s : List Record) (size : Int) : Option (List Record) :=
  if (s.length : Int) > size then
    if size < 0 then none else some (s.take size.toNat)
  else some s

/-- Lines 351 to 384 of `GetRecords`: the cached slice of the period after the
fetched series has been merged into it and the result cut to `size`. -/
def GetRecords.merge (env : Env) (cache : List Record) (raw : List RecordJSON)
    (size : Int) : Option (List Record) :=
  let timeLast : Int := match cache.getLast? with
    | some r => r.Time
    | none => 0
  match GetRecords.scan env timeLast raw.reverse cache [] with
  | none => none
  | some (cache, recordsNew) => truncate (cache ++ recordsNew) size

/-- The size of `GetRecords`: 200 unless an optional argument is given. -/
def GetRecords.size (sizes : List Int) : Int :=
  match sizes with
  | s :: _ => s
  | [] => 200

/-- The address `GetRecords` requests. -/
def GetRecords.url (e : OKCoinCn) (stockType period : String) (sizes : List Int) : String :=
  e.host ++ "kline.do?symbol=" ++ mapGet e.stockMap stockType ++ "_cny&type="
    ++ mapGet e.periodMap period ++ "&size=" ++ toString (GetRecords.size sizes)

/-- The method `GetRecords`: the events, and unless it panics the exchange with
its updated cache together with the returned slice. -/
def GetRecords (env : Env) (e : OKCoinCn) (stockType period : String) (sizes : List Int) :
    List Event × Option (OKCoinCn × List Record) :=
  if ¬ mapHas e.stockMap stockType then
    ([Event.log "error" 0 0], some (e, []))
  else if ¬ mapHas e.periodMap period then
    ([Event.log "error" 0 0], some (e, []))
  else
    let size := GetRecords.size sizes
    let url := GetRecords.url e stockType period sizes
    match env.get url with
    | .error _ => ([Event.get url, Event.log "error" 0 0], some (e, []))
    | .ok resp =>
      match env.NewJson resp with
      | .error _ => ([Event.get url, Event.log "error" 0 0], some (e, []))
      | .ok json =>
        match GetRecords.merge env (e.records period) json.array size with
        | none => ([Event.get url], none)
        | some cache =>
          ([Event.get url, Event.println cache.length],
            some ({ e with records := Function.update e.records period cache }, cache))

/-! ## The merge in the words of its description -/

/-- The time key of a fetched entry. -/
def keyOf (env : Env) (r : RecordJSON) : Int :=
  env.minuteKey (Int.tdiv r.stamp 1000)

/-- The cache's current last time key, 0 while the cache is empty. -/
def lastKey (cache : List Record) : Int :=
  match cache.getLast? with
  | some r => r.Time
  | none => 0

/-- The fetched entries the walk reaches, newest first: it stops at the first
entry older than the cache's last time key. -/
def visited (env : Env) (cache : List Record) (raw : List RecordJSON) : List RecordJSON :=
  raw.reverse.takeWhile (fun r => decide (lastKey cache ≤ keyOf env r))

/-- The record of a fetched entry: its time key and its five values. -/
def fetchedRecord (env : Env) (r : RecordJSON) : Record :=
  { Time := keyOf env r, Open := r.open_, High := r.high, Low := r.low, Close := r.close,
    Volume := r.volume }

/-- The staged new records: the reached entries strictly newer than the cache's
last time key, in the order they were reached. -/
def staged (env : Env) (cache : List Record) (raw : List RecordJSON) : List Record :=
  ((visited env cache raw).filter (fun r => decide (lastKey cache < keyOf env r))).map
    (fetchedRecord env)

/-- The prior cache with its last record overwritten when a reached entry has
the cache's last time key (the entry reached last wins). -/
def revised (env : Env) (cache : List Record) (raw : List RecordJSON) : List Record :=
  match ((visited env cache raw).filter
      (fun r => decide (keyOf env r = lastKey cache))).getLast? with
  | none => cache
  | some r => cache.dropLast ++ [fetchedRecord env r]

/-- A parameter of the form `key=…`. -/
def hasKey (key param : String) : Prop :=
  param.data.take (key.length + 1) = key.data ++ ['=']

instance (key param : String) : Decidable (hasKey key param) := by
  unfold hasKey; infer_instance

/-! ## Fixtures -/

/-- Civil date of a day count since 1970-01-01 as the number `YYYYMMDD`. -/
def civilDate (days : Int) : Int :=
  let z := days + 719468
  let era := z / 146097
  let doe := z - era * 146097
  let yoe := (doe - doe / 1460 + doe / 36524 - doe / 146096) / 365
  let doy := doe - (365 * yoe + yoe / 4 - yoe / 100)
  let mp := (5 * doy + 2) / 153
  let d := doy - (153 * mp + 2) / 5 + 1
  let m := if mp < 10 then mp + 3 else mp - 9
  let y := yoe + era * 400 + (if m ≤ 2 then 1 else 0)
  y * 10000 + m * 100 + d

/-- The minute stamp `YYYYMMDDhhmm` of a Unix time read in the UTC zone. -/
def utcMinuteKey (sec : Int) : Int :=
  let rem := sec % 86400
  civilDate (sec / 86400) * 10000 + (rem / 3600) * 100 + (rem % 3600) / 60

/-- Decimal text of a rational: the integer, or `num/den`. -/
def sprintRat (q : ℚ) : String :=
  if q.den = 1 then toString q.num else toString q.num ++ "/" ++ toString q.den

/-- An empty document. -/
def Json.empty : Json :=
  { result := false, error_code := 0, order_id := "", orders := [], bids := [], asks := [],
    array := [] }

/-- A transport that answers every request with the body `"ok"`, decoded as `json`;
the digest is a fixed text and the arithmetic is exact. -/
def Env.serving (json : Json) (minuteKey : Int → Int) : Env :=
  { get := fun _ => .ok "ok"
    post := fun _ _ => .ok "ok"
    signMd5 := fun _ => "0cc175b9c0f1b6a831c399e269772661"
    NewJson := fun _ => .ok json
    ToUpper := fun s => String.mk (s.data.map Char.toUpper)
    Sprint := sprintRat
    minuteKey := minuteKey
    add64 := fun a b => a + b
    div64 := fun a b => a / b }

/-- The exchange created for a sample key pair. -/
def sampleExchange : OKCoinCn :=
  NewOKCoinCn { TypeName := "okcoin.cn", AccessKey := "ak", SecretKey := "sk", MainStock := "BTC" }

/-- The sample exchange holding `cache` for every period. -/
def sampleExchange.holding (cache : List Record) : OKCoinCn :=
  { sampleExchange with records := fun _ => cache }

/-- A kline entry whose four prices are `price` and whose volume is 1. -/
def flatCandle (stamp : Int) (price : ℚ) : RecordJSON :=
  { stamp := stamp, open_ := price, high := price, low := price, close := price, volume := 1 }

/-- The record of a flat candle. -/
def flatRecord (time : Int) (price : ℚ) : Record :=
  { Time := time, Open := price, High := price, Low := price, Close := price, Volume := 1 }

/-- A kline document. -/
def klineOf (raw : List RecordJSON) : Json :=
  { Json.empty with array := raw }

/-- A depth document. -/
def depthOf (bids asks : List (ℚ × ℚ)) : Json :=
  { Json.empty with bids := bids, asks := asks }

/-- The answer of the exchange to an accepted request about order 7. -/
def acceptedOf : Json :=
  { Json.empty with
    result := true
    order_id := "7"
    orders := [{ order_id := "7", price := 1, amount := 2, deal_amount := 0, type := "buy" }] }

/-! ## The walk over the fetched series -/

theorem scan_eq (env : Env) (tl : Int) (l : List RecordJSON) :
    ∀ (cache recordsNew : List Record), (cache ≠ [] ∨ ∀ r ∈ l, keyOf env r ≠ tl) →
    GetRecords.scan env tl l cache recordsNew =
      some
        ((match ((l.takeWhile (fun r => decide (tl ≤ keyOf env r))).filter
            (fun r => decide (keyOf env r = tl))).getLast? with
          | none => cache
          | some r => cache.dropLast ++ [recordOf env r]),
        recordsNew ++ ((l.takeWhile (fun r => decide (tl ≤ keyOf env r))).filter
            (fun r => decide (tl < keyOf env r))).map (recordOf env)) := by
  induction l with
  | nil => intro cache recordsNew _; simp [GetRecords.scan]
  | cons r rest ih =>
    intro cache recordsNew h
    rcases lt_trichotomy tl (keyOf env r) with hlt | heq | hgt
    · have hne : keyOf env r ≠ tl := ne_of_gt hlt
      have h' : cache ≠ [] ∨ ∀ x ∈ rest, keyOf env x ≠ tl := by
        rcases h with h | h
        · exact Or.inl h
        · exact Or.inr (fun x hx => h x (List.mem_cons_of_mem _ hx))
      have hk : env.minuteKey (Int.tdiv r.stamp 1000) > tl := hlt
      rw [GetRecords.scan]
      simp only [hk, if_true]
      rw [ih cache _ h']
      simp [List.takeWhile_cons, List.filter_cons, le_of_lt hlt, hlt, hne]
    · have hc : cache ≠ [] := by
        rcases h with h | h
        · exact h
        · exact absurd heq.symm (h r (List.mem_cons_self _ _))
      have hk : env.minuteKey (Int.tdiv r.stamp 1000) = tl := heq.symm
      obtain ⟨c, cs, rfl⟩ := List.exists_cons_of_ne_nil hc
      rw [GetRecords.scan]
      simp only [hk, gt_iff_lt, lt_irrefl, if_false, if_true, setLast]
      rw [ih _ _ (Or.inl (by simp))]
      have hk' : keyOf env r = tl := hk
      simp only [List.takeWhile_cons, hk', le_refl, decide_True, if_true, List.filter_cons,
        lt_irrefl, decide_False, List.getLast?_cons]
      cases hl : (List.filter (fun r => decide (keyOf env r = tl))
          (List.takeWhile (fun r => decide (tl ≤ keyOf env r)) rest)).getLast? with
      | none => simp
      | some x => simp [List.dropLast_append_of_ne_nil]
    · have hk : ¬ (env.minuteKey (Int.tdiv r.stamp 1000) > tl) := not_lt.mpr (le_of_lt hgt)
      have hk2 : ¬ (env.minuteKey (Int.tdiv r.stamp 1000) = tl) := ne_of_lt hgt
      have hk3 : ¬ (tl ≤ keyOf env r) := not_le.mpr hgt
      rw [GetRecords.scan]
      simp [hk, hk2, hk3, List.takeWhile_cons]

theorem lastKey_nil : lastKey [] = 0 := rfl

theorem merge_eq_truncate (env : Env) (cache : List Record) (raw : List RecordJSON)
    (size : Int) (hkey : cache = [] → ∀ r ∈ raw, keyOf env r ≠ 0) :
    GetRecords.merge env cache raw size =
      truncate (revised env cache raw ++ staged env cache raw) size := by
  have h : cache ≠ [] ∨ ∀ r ∈ raw.reverse, keyOf env r ≠ lastKey cache := by
    by_cases hc : cache = []
    · right
      intro r hr
      rw [hc, lastKey_nil]
      exact hkey hc r (List.mem_reverse.mp hr)
    · exact Or.inl hc
  have hscan := scan_eq env (lastKey cache) raw.reverse cache [] h
  unfold GetRecords.merge
  change (match GetRecords.scan env (lastKey cache) raw.reverse cache [] with
    | none => none
    | some (cache, recordsNew) => truncate (cache ++ recordsNew) size) = _
  rw [hscan]
  simp only [List.nil_append]
  rfl

theorem truncate_eq_take (s : List Record) (size : Int) (hsize : 0 ≤ size) :
    truncate s size = some (s.take size.toNat) := by
  unfold truncate
  split_ifs with h1 h2
  · exact absurd hsize (not_le.mpr h2)
  · rfl
  · have : s.length ≤ size.toNat := by omega
    rw [List.take_of_length_le this]

theorem GetRecords_fetched (env : Env) (e : OKCoinCn) (stockType period : String)
    (sizes : List Int) (body : String) (json : Json)
    (hstock : mapHas e.stockMap stockType = true)
    (hperiod : mapHas e.periodMap period = true)
    (hget : env.get (GetRecords.url e stockType period sizes) = .ok body)
    (hjson : env.NewJson body = .ok json) :
    (GetRecords env e stockType period sizes).2 =
      (GetRecords.merge env (e.records period) json.array (GetRecords.size sizes)).map
        (fun cache => ({ e with records := Function.update e.records period cache }, cache)) := by
  unfold GetRecords
  simp only [hstock, hperiod, not_true_eq_false, if_false, hget, hjson]
  cases GetRecords.merge env (e.records period) json.array (GetRecords.size sizes) <;> rfl

theorem merge_empty_cache_zero_key (env : Env) (r : RecordJSON) (size : Int)
    (h : keyOf env r = 0) : GetRecords.merge env [] [r] size = none := by
  have hk : env.minuteKey (Int.tdiv r.stamp 1000) = 0 := h
  simp [GetRecords.merge, GetRecords.scan, setLast, hk]

/-! ## Bounding truncation -/

theorem size_of_call (sizes : List Int) (size : Int)
    (hcall : (sizes = [] ∧ size = 200) ∨ ∃ rest, sizes = size :: rest) :
    GetRecords.size sizes = size := by
  rcases hcall with ⟨h1, h2⟩ | ⟨rest, h⟩
  · rw [h1, h2]; rfl
  · rw [h]; rfl

theorem recordOf_eq_fetchedRecord (env : Env) (r : RecordJSON) :
    recordOf env r = fetchedRecord env r :=
  rfl

/-- C10. The caller passes `size` as the first optional argument, or passes
none and `size` is 200. When the stock and the period are recognised, the fetch
succeeds and `size` is not negative, `GetRecords` leaves as the cache of the
period, and returns, exactly the first `min size n` entries of the `n`-entry
sequence made of the prior cache (its last record overwritten when a reached
entry has its time key) followed by the staged new records: at most `size`
entries, and what is dropped is dropped from the tail. (On an empty cache the
walk compares with the key 0 and an entry of key 0 would overwrite a record
that does not exist; a formatted minute stamp is never 0.) -/
theorem GetRecords_bounding_truncation (env : Env) (e : OKCoinCn) (stockType period : String)
    (sizes : List Int) (body : String) (json : Json) (size : Int)
    (hstock : mapHas e.stockMap stockType = true)
    (hperiod : mapHas e.periodMap period = true)
    (hget : env.get (GetRecords.url e stockType period sizes) = .ok body)
    (hjson : env.NewJson body = .ok json)
    (hcall : (sizes = [] ∧ size = 200) ∨ ∃ rest, sizes = size :: rest)
    (hsize : 0 ≤ size)
    (hkey : e.records period = [] → ∀ r ∈ json.array, keyOf env r ≠ 0) :
    ∃ (e' : OKCoinCn) (kept dropped : List Record),
      (GetRecords env e stockType period sizes).2 = some (e', kept) ∧
      e'.records period = kept ∧
      kept = (revised env (e.records period) json.array ++
          staged env (e.records period) json.array).take
        (min size.toNat
          (revised env (e.records period) json.array ++
            staged env (e.records period) json.array).length) ∧
      kept.length = min size.toNat
          (revised env (e.records period) json.array ++
            staged env (e.records period) json.array).length ∧
      (kept.length : Int) ≤ size ∧
      revised env (e.records period) json.array ++ staged env (e.records period) json.array
        = kept ++ dropped := by
  have hs : GetRecords.size sizes = size := size_of_call sizes size hcall
  set full := revised env (e.records period) json.array ++
    staged env (e.records period) json.array with hfull
  refine ⟨{ e with
      records := Function.update e.records period (full.take size.toNat) },
    full.take size.toNat, full.drop size.toNat, ?_, ?_, ?_, ?_, ?_, ?_⟩
  · rw [GetRecords_fetched env e stockType period sizes body json hstock hperiod hget hjson,
      hs, merge_eq_truncate env _ _ _ hkey, truncate_eq_take _ _ hsize]
    rfl
  · simp
  · rcases le_total size.toNat full.length with h | h
    · rw [min_eq_left h]
    · rw [min_eq_right h, List.take_of_length_le h, List.take_of_length_le le_rfl]
  · rw [List.length_take]
  · have h1 : (full.take size.toNat).length ≤ size.toNat := List.length_take_le _ _
    omega
  · exact (List.take_append_drop _ _).symm

/-- The witness of C10: two minutes fetched into a new exchange by a call that
asks for one entry. -/
theorem GetRecords_bounding_truncation_witness :
    (([1] : List Int) = [] ∧ (1 : Int) = 200 ∨ ∃ rest, ([1] : List Int) = 1 :: rest) ∧
    (0 : Int) ≤ 1 ∧
    ∃ (e' : OKCoinCn) (kept dropped : List Record),
      (GetRecords (Env.serving (klineOf [flatCandle 1451606400000 10,
          flatCandle 1451606460000 11]) utcMinuteKey) sampleExchange "BTC" "M" [1]).2
        = some (e', kept) ∧
      e'.records "M" = kept ∧
      kept = (revised (Env.serving (klineOf [flatCandle 1451606400000 10,
            flatCandle 1451606460000 11]) utcMinuteKey) (sampleExchange.records "M")
            (klineOf [flatCandle 1451606400000 10, flatCandle 1451606460000 11]).array ++
          staged (Env.serving (klineOf [flatCandle 1451606400000 10,
            flatCandle 1451606460000 11]) utcMinuteKey) (sampleExchange.records "M")
            (klineOf [flatCandle 1451606400000 10, flatCandle 1451606460000 11]).array).take
        (min (1 : Int).toNat
          (revised (Env.serving (klineOf [flatCandle 1451606400000 10,
            flatCandle 1451606460000 11]) utcMinuteKey) (sampleExchange.records "M")
            (klineOf [flatCandle 1451606400000 10, flatCandle 1451606460000 11]).array ++
          staged (Env.serving (klineOf [flatCandle 1451606400000 10,
            flatCandle 1451606460000 11]) utcMinuteKey) (sampleExchange.records "M")
            (klineOf [flatCandle 1451606400000 10,
              flatCandle 1451606460000 11]).array).length) ∧
      kept.length = min (1 : Int).toNat
          (revised (Env.serving (klineOf [flatCandle 1451606400000 10,
            flatCandle 1451606460000 11]) utcMinuteKey) (sampleExchange.records "M")
            (klineOf [flatCandle 1451606400000 10, flatCandle 1451606460000 11]).array ++
          staged (Env.serving (klineOf [flatCandle 1451606400000 10,
            flatCandle 1451606460000 11]) utcMinuteKey) (sampleExchange.records "M")
            (klineOf [flatCandle 1451606400000 10,
              flatCandle 1451606460000 11]).array).length ∧
      (kept.length : Int) ≤ 1 ∧
      revised (Env.serving (klineOf [flatCandle 1451606400000 10,
            flatCandle 1451606460000 11]) utcMinuteKey) (sampleExchange.records "M")
            (klineOf [flatCandle 1451606400000 10, flatCandle 1451606460000 11]).array ++
          staged (Env.serving (klineOf [flatCandle 1451606400000 10,
            flatCandle 1451606460000 11]) utcMinuteKey) (sampleExchange.records "M")
            (klineOf [flatCandle 1451606400000 10, flatCandle 1451606460000 11]).array
        = kept ++ dropped :=
  ⟨Or.inr ⟨[], rfl⟩, by decide,
    GetRecords_bounding_truncation
      (Env.serving (klineOf [flatCandle 1451606400000 10, flatCandle 1451606460000 11])
        utcMinuteKey)
      sampleExchange "BTC" "M" [1] "ok"
      (klineOf [flatCandle 1451606400000 10, flatCandle 1451606460000 11]) 1
      (by decide) (by decide) rfl rfl (Or.inr ⟨[], rfl⟩) (by decide) (by decide)⟩

/-! ## The order of the cache -/

/-- C1. Two minutes fetched into a new exchange, twice in a row with the default
size: the first call leaves the newer minute before the older one, the second
call compares with the older minute, stages the newer one again and leaves it
in the cache twice. -/
theorem GetRecords_second_merge_duplicates :
    (GetRecords (Env.serving (klineOf [flatCandle 1451606400000 10,
        flatCandle 1451606460000 11]) utcMinuteKey) sampleExchange "BTC" "M" []).2.map Prod.snd
      = some [flatRecord 201601010001 11, flatRecord 201601010000 10] ∧
    ((GetRecords (Env.serving (klineOf [flatCandle 1451606400000 10,
        flatCandle 1451606460000 11]) utcMinuteKey) sampleExchange "BTC" "M" []).2.bind
      (fun s => (GetRecords (Env.serving (klineOf [flatCandle 1451606400000 10,
        flatCandle 1451606460000 11]) utcMinuteKey) s.1 "BTC" "M" []).2)).map Prod.snd
      = some [flatRecord 201601010001 11, flatRecord 201601010000 10,
          flatRecord 201601010001 11] := by
  decide

/-- C2. Three minutes with strictly increasing time keys fetched into the empty
cache of a new exchange: the cache holds them newest first, so it is not
ascending by time key. -/
theorem GetRecords_first_merge_descending :
    ((klineOf [flatCandle 1451606400000 10, flatCandle 1451606460000 11,
        flatCandle 1451606520000 12]).array.map (keyOf (Env.serving Json.empty utcMinuteKey))
      = [201601010000, 201601010001, 201601010002]) ∧
    ∃ (e' : OKCoinCn) (cache : List Record),
      (GetRecords (Env.serving (klineOf [flatCandle 1451606400000 10,
        flatCandle 1451606460000 11, flatCandle 1451606520000 12]) utcMinuteKey)
        sampleExchange "BTC" "M" []).2 = some (e', cache) ∧
      e'.records "M" = cache ∧
      cache = [flatRecord 201601010002 12, flatRecord 201601010001 11,
        flatRecord 201601010000 10] ∧
      ¬ cache.Pairwise (fun a b => a.Time < b.Time) := by
  refine ⟨by decide, _, _, rfl, ?_, ?_, ?_⟩
  · decide
  · decide
  · decide

/-! ## The update law -/

theorem lastKey_of_getLast (cache : List Record) (last : Record)
    (h : cache.getLast? = some last) : lastKey cache = last.Time := by
  simp [lastKey, h]

theorem takeWhile_none {α : Type} (p : α → Bool) (l : List α) (h : ∀ x ∈ l, p x = false) :
    l.takeWhile p = [] := by
  cases l with
  | nil => rfl
  | cons x xs => simp [List.takeWhile_cons, h x (List.mem_cons_self _ _)]

/-- C5 as stated fails in two ways. A size below the length of the cache: the
cache holds 00:00 and 00:01, the fetch brings 00:01 again and the call asks for
one entry, so the overwritten record is cut off and the last entry is 00:00.
Two fetched entries of the same minute: the older one is written last. -/
theorem GetRecords_update_law_counterexample :
    keyOf (Env.serving Json.empty utcMinuteKey) (flatCandle 1451606460000 12)
      = (flatRecord 201601010001 11).Time ∧
    keyOf (Env.serving Json.empty utcMinuteKey) (flatCandle 1451606490000 13)
      = (flatRecord 201601010001 11).Time ∧
    (GetRecords (Env.serving (klineOf [flatCandle 1451606460000 12]) utcMinuteKey)
        (sampleExchange.holding [flatRecord 201601010000 10, flatRecord 201601010001 11])
        "BTC" "M" [1]).2.map Prod.snd
      = some [flatRecord 201601010000 10] ∧
    (GetRecords (Env.serving (klineOf [flatCandle 1451606460000 12,
        flatCandle 1451606490000 13]) utcMinuteKey)
        (sampleExchange.holding [flatRecord 201601010000 10, flatRecord 201601010001 11])
        "BTC" "M" []).2.map Prod.snd
      = some [flatRecord 201601010000 10, flatRecord 201601010001 12] := by
  decide

/-- C5, amended. The stock and the period are recognised, the fetch succeeds,
the cache is not empty, the fetched array lists its newest entry last (the
entry the walk visits first), that entry has the time key of the cache's last
record, every other fetched entry has a smaller time key, and the size (the
caller's first optional argument, 200 when there is none) is at least the
length of the cache. Then `GetRecords` leaves the cache as it was except for
its last record, which has the same time key and the open, high, low, close and
volume of the newest fetched entry, and returns that cache. -/
theorem GetRecords_update_law (env : Env) (e : OKCoinCn) (stockType period : String)
    (sizes : List Int) (body : String) (json : Json) (size : Int)
    (older : List RecordJSON) (newest : RecordJSON) (last : Record)
    (hstock : mapHas e.stockMap stockType = true)
    (hperiod : mapHas e.periodMap period = true)
    (hget : env.get (GetRecords.url e stockType period sizes) = .ok body)
    (hjson : env.NewJson body = .ok json)
    (hcall : (sizes = [] ∧ size = 200) ∨ ∃ rest, sizes = size :: rest)
    (hraw : json.array = older ++ [newest])
    (hlast : (e.records period).getLast? = some last)
    (hsame : keyOf env newest = last.Time)
    (holder : ∀ r ∈ older, keyOf env r < keyOf env newest)
    (hsize : ((e.records period).length : Int) ≤ size) :
    ∃ (e' : OKCoinCn) (r : Record),
      (GetRecords env e stockType period sizes).2 = some (e', e'.records period) ∧
      e'.records period = (e.records period).dropLast ++ [r] ∧
      (e'.records period).getLast? = some r ∧
      r.Time = last.Time ∧ r.Open = newest.open_ ∧ r.High = newest.high ∧
      r.Low = newest.low ∧ r.Close = newest.close ∧ r.Volume = newest.volume := by
  have hs : GetRecords.size sizes = size := size_of_call sizes size hcall
  have hne : e.records period ≠ [] := by
    intro h; rw [h] at hlast; simp at hlast
  have hlk : lastKey (e.records period) = keyOf env newest := by
    rw [lastKey_of_getLast _ _ hlast, hsame]
  have hvis : visited env (e.records period) json.array = [newest] := by
    unfold visited
    rw [hraw, List.reverse_append, List.reverse_singleton, List.singleton_append,
      List.takeWhile_cons, hlk]
    simp only [le_refl, decide_True, if_true, List.cons.injEq, true_and]
    apply takeWhile_none
    intro x hx
    have := holder x (List.mem_reverse.mp hx)
    simp [this]
  have hrev : revised env (e.records period) json.array
      = (e.records period).dropLast ++ [fetchedRecord env newest] := by
    simp [revised, hvis, hlk]
  have hst : staged env (e.records period) json.array = [] := by
    simp [staged, hvis, hlk]
  have hlen : ((e.records period).dropLast ++ [fetchedRecord env newest]).length
      = (e.records period).length := by
    have := List.length_pos.mpr hne
    simp; omega
  have hmerge : GetRecords.merge env (e.records period) json.array size
      = some ((e.records period).dropLast ++ [fetchedRecord env newest]) := by
    rw [merge_eq_truncate env _ _ _ (fun h => absurd h hne), hrev, hst, List.append_nil]
    unfold truncate
    rw [hlen, if_neg (not_lt.mpr hsize)]
  refine ⟨{ e with
      records := Function.update e.records period
        ((e.records period).dropLast ++ [fetchedRecord env newest]) },
    fetchedRecord env newest, ?_, ?_, ?_, ?_, rfl, rfl, rfl, rfl, rfl⟩
  · rw [GetRecords_fetched env e stockType period sizes body json hstock hperiod hget hjson,
      hs, hmerge]
    simp
  · simp
  · simp
  · exact hsame

/-- The witness of C5: a cache of two minutes, the newer one fetched again with
fresh prices by a call with the default size. -/
theorem GetRecords_update_law_witness :
    ((([] : List Int) = [] ∧ (200 : Int) = 200) ∨ ∃ rest, ([] : List Int) = 200 :: rest) ∧
    (klineOf [flatCandle 1451606400000 10, flatCandle 1451606460000 12]).array
      = [flatCandle 1451606400000 10] ++ [flatCandle 1451606460000 12] ∧
    ((sampleExchange.holding [flatRecord 201601010000 10,
        flatRecord 201601010001 11]).records "M").getLast?
      = some (flatRecord 201601010001 11) ∧
    ∃ (e' : OKCoinCn) (r : Record),
      (GetRecords (Env.serving (klineOf [flatCandle 1451606400000 10,
          flatCandle 1451606460000 12]) utcMinuteKey)
        (sampleExchange.holding [flatRecord 201601010000 10, flatRecord 201601010001 11])
        "BTC" "M" []).2 = some (e', e'.records "M") ∧
      e'.records "M" = ((sampleExchange.holding [flatRecord 201601010000 10,
        flatRecord 201601010001 11]).records "M").dropLast ++ [r] ∧
      (e'.records "M").getLast? = some r ∧
      r.Time = (flatRecord 201601010001 11).Time ∧
      r.Open = (flatCandle 1451606460000 12).open_ ∧
      r.High = (flatCandle 1451606460000 12).high ∧
      r.Low = (flatCandle 1451606460000 12).low ∧
      r.Close = (flatCandle 1451606460000 12).close ∧
      r.Volume = (flatCandle 1451606460000 12).volume :=
  ⟨Or.inl ⟨rfl, rfl⟩, rfl, rfl,
    GetRecords_update_law
      (Env.serving (klineOf [flatCandle 1451606400000 10, flatCandle 1451606460000 12])
        utcMinuteKey)
      (sampleExchange.holding [flatRecord 201601010000 10, flatRecord 201601010001 11])
      "BTC" "M" [] "ok"
      (klineOf [flatCandle 1451606400000 10, flatCandle 1451606460000 12]) 200
      [flatCandle 1451606400000 10] (flatCandle 1451606460000 12)
      (flatRecord 201601010001 11)
      (by decide) (by decide) rfl rfl (Or.inl ⟨rfl, rfl⟩) rfl rfl (by decide) (by decide)
      (by decide)⟩

/-! ## The example scenario -/

/-- C8. The scenario for any two time keys `k1 < k2` (the claim writes
2024010100 and 2024010101) and any closes (the claim writes 100 in the cache,
105 and 110 in the fetch). The stock and the period are recognised, the cache
of the period is one record of time key `k1`, the fetch succeeds and holds two
entries, one of time key `k1` and one of time key `k2`, in either array order,
and the size (the caller's first optional argument, 200 when there is none) is
at least 2. Then `GetRecords` leaves the cache equal to the record of the first
entry (time key `k1`, its own open, high, low, close and volume, nothing of the
cached record) followed by the record of the second entry (time key `k2`), and
returns that sequence. -/
theorem GetRecords_example_scenario (env : Env) (e : OKCoinCn) (stockType period : String)
    (sizes : List Int) (body : String) (json : Json) (size k1 k2 : Int)
    (c : Record) (r1 r2 : RecordJSON)
    (hstock : mapHas e.stockMap stockType = true)
    (hperiod : mapHas e.periodMap period = true)
    (hget : env.get (GetRecords.url e stockType period sizes) = .ok body)
    (hjson : env.NewJson body = .ok json)
    (hcall : (sizes = [] ∧ size = 200) ∨ ∃ rest, sizes = size :: rest)
    (hsize : 2 ≤ size)
    (hcache : e.records period = [c]) (hcT : c.Time = k1)
    (hraw : json.array = [r1, r2] ∨ json.array = [r2, r1])
    (h1 : keyOf env r1 = k1) (h2 : keyOf env r2 = k2) (hk : k1 < k2) :
    ∃ e' : OKCoinCn,
      (GetRecords env e stockType period sizes).2
        = some (e',
            [{ Time := k1, Open := r1.open_, High := r1.high, Low := r1.low,
               Close := r1.close, Volume := r1.volume },
             { Time := k2, Open := r2.open_, High := r2.high, Low := r2.low,
               Close := r2.close, Volume := r2.volume }]) ∧
      e'.records period
        = [{ Time := k1, Open := r1.open_, High := r1.high, Low := r1.low,
             Close := r1.close, Volume := r1.volume },
           { Time := k2, Open := r2.open_, High := r2.high, Low := r2.low,
             Close := r2.close, Volume := r2.volume }] := by
  have hs : GetRecords.size sizes = size := size_of_call sizes size hcall
  have e1 : env.minuteKey (Int.tdiv r1.stamp 1000) = k1 := h1
  have e2 : env.minuteKey (Int.tdiv r2.stamp 1000) = k2 := h2
  have hnot : ¬ k1 > k1 := lt_irrefl k1
  have hmerge : GetRecords.merge env (e.records period) json.array size
      = some [{ Time := k1, Open := r1.open_, High := r1.high, Low := r1.low,
                Close := r1.close, Volume := r1.volume },
              { Time := k2, Open := r2.open_, High := r2.high, Low := r2.low,
                Close := r2.close, Volume := r2.volume }] := by
    have ht : ∀ a b : Record, truncate [a, b] size = some [a, b] := by
      intro a b
      unfold truncate
      rw [if_neg]
      simp only [List.length_cons, List.length_nil]
      push_cast
      omega
    rcases hraw with hraw | hraw
    · rw [hcache, hraw]
      simp [GetRecords.merge, GetRecords.scan, setLast, recordOf, hcT, e1, e2, hk, ht]
    · rw [hcache, hraw]
      simp [GetRecords.merge, GetRecords.scan, setLast, recordOf, hcT, e1, e2, hk, ht]
  refine ⟨{ e with
      records := Function.update e.records period
        [{ Time := k1, Open := r1.open_, High := r1.high, Low := r1.low,
           Close := r1.close, Volume := r1.volume },
         { Time := k2, Open := r2.open_, High := r2.high, Low := r2.low,
           Close := r2.close, Volume := r2.volume }] },
    ?_, ?_⟩
  · rw [GetRecords_fetched env e stockType period sizes body json hstock hperiod hget hjson,
      hs, hmerge]
    rfl
  · simp

/-- The witness of C8: the cache holds 2024-01-01 00:00 with close 100, the
fetch holds 00:00 with close 105 and 00:01 with close 110, the call asks for 2. -/
theorem GetRecords_example_scenario_witness :
    ((([2] : List Int) = [] ∧ (2 : Int) = 200) ∨ ∃ rest, ([2] : List Int) = 2 :: rest) ∧
    (2 : Int) ≤ 2 ∧
    ((sampleExchange.holding [flatRecord 202401010000 100]).records "M"
      = [flatRecord 202401010000 100]) ∧
    keyOf (Env.serving (klineOf [flatCandle 1704067200000 105,
        flatCandle 1704067260000 110]) utcMinuteKey) (flatCandle 1704067200000 105)
      = 202401010000 ∧
    keyOf (Env.serving (klineOf [flatCandle 1704067200000 105,
        flatCandle 1704067260000 110]) utcMinuteKey) (flatCandle 1704067260000 110)
      = 202401010001 ∧
    ∃ e' : OKCoinCn,
      (GetRecords (Env.serving (klineOf [flatCandle 1704067200000 105,
          flatCandle 1704067260000 110]) utcMinuteKey)
        (sampleExchange.holding [flatRecord 202401010000 100]) "BTC" "M" [2]).2
        = some (e',
            [{ Time := 202401010000, Open := (flatCandle 1704067200000 105).open_,
               High := (flatCandle 1704067200000 105).high,
               Low := (flatCandle 1704067200000 105).low,
               Close := (flatCandle 1704067200000 105).close,
               Volume := (flatCandle 1704067200000 105).volume },
             { Time := 202401010001, Open := (flatCandle 1704067260000 110).open_,
               High := (flatCandle 1704067260000 110).high,
               Low := (flatCandle 1704067260000 110).low,
               Close := (flatCandle 1704067260000 110).close,
               Volume := (flatCandle 1704067260000 110).volume }]) ∧
      e'.records "M"
        = [{ Time := 202401010000, Open := (flatCandle 1704067200000 105).open_,
             High := (flatCandle 1704067200000 105).high,
             Low := (flatCandle 1704067200000 105).low,
             Close := (flatCandle 1704067200000 105).close,
             Volume := (flatCandle 1704067200000 105).volume },
           { Time := 202401010001, Open := (flatCandle 1704067260000 110).open_,
             High := (flatCandle 1704067260000 110).high,
             Low := (flatCandle 1704067260000 110).low,
             Close := (flatCandle 1704067260000 110).close,
             Volume := (flatCandle 1704067260000 110).volume }] :=
  ⟨Or.inr ⟨[], rfl⟩, by decide, rfl, by decide, by decide,
    GetRecords_example_scenario
      (Env.serving (klineOf [flatCandle 1704067200000 105, flatCandle 1704067260000 110])
        utcMinuteKey)
      (sampleExchange.holding [flatRecord 202401010000 100]) "BTC" "M" [2] "ok"
      (klineOf [flatCandle 1704067200000 105, flatCandle 1704067260000 110])
      2 202401010000 202401010001
      (flatRecord 202401010000 100) (flatCandle 1704067200000 105)
      (flatCandle 1704067260000 110)
      (by decide) (by decide) rfl rfl (Or.inr ⟨[], rfl⟩) (by decide) rfl rfl (Or.inl rfl)
      (by decide) (by decide) (by decide)⟩

/-! ## The signer -/

theorem getAuthJSON_events (env : Env) (e : OKCoinCn) (url : String) (params : List String) :
    (getAuthJSON env e url params).1 = [Event.post url (getAuthJSON.params env e params)] :=
  rfl

theorem bytesLE_total : ∀ x y : List Char, bytesLE x y = true ∨ bytesLE y x = true
  | [], _ => Or.inl (by simp [bytesLE])
  | _ :: _, [] => Or.inr (by simp [bytesLE])
  | a :: as, b :: bs => by
    rcases lt_trichotomy a b with h | h | h
    · left; simp [bytesLE, h]
    · subst h
      rcases bytesLE_total as bs with h | h
      · left; simp [bytesLE, h]
      · right; simp [bytesLE, h]
    · right; simp [bytesLE, h]

theorem bytesLE_trans : ∀ x y z : List Char,
    bytesLE x y = true → bytesLE y z = true → bytesLE x z = true
  | [], _, _ => fun _ _ => by simp [bytesLE]
  | _ :: _, [], _ => fun h _ => by simp [bytesLE] at h
  | _ :: _, _ :: _, [] => fun _ h => by simp [bytesLE] at h
  | a :: as, b :: bs, c :: cs => by
    intro h1 h2
    rcases lt_trichotomy a b with hab | hab | hab
    · rcases lt_trichotomy b c with hbc | hbc | hbc
      · simp [bytesLE, hab.trans hbc]
      · subst hbc; simp [bytesLE, hab]
      · simp [bytesLE, hbc, lt_asymm hbc] at h2
    · subst hab
      rcases lt_trichotomy a c with hbc | hbc | hbc
      · simp [bytesLE, hbc]
      · subst hbc
        simp only [bytesLE, lt_irrefl, if_false] at h1 h2 ⊢
        exact bytesLE_trans as bs cs h1 h2
      · simp [bytesLE, hbc, lt_asymm hbc] at h2
    · simp [bytesLE, hab, lt_asymm hab] at h1

theorem bytesLE_antisymm : ∀ x y : List Char,
    bytesLE x y = true → bytesLE y x = true → x = y
  | [], [] => fun _ _ => rfl
  | [], _ :: _ => fun _ h => by simp [bytesLE] at h
  | _ :: _, [] => fun h _ => by simp [bytesLE] at h
  | a :: as, b :: bs => by
    intro h1 h2
    rcases lt_trichotomy a b with hab | hab | hab
    · simp [bytesLE, hab, lt_asymm hab] at h2
    · subst hab
      simp only [bytesLE, lt_irrefl, if_false] at h1 h2
      rw [bytesLE_antisymm as bs h1 h2]
    · simp [bytesLE, hab, lt_asymm hab] at h1

instance : IsTotal String stringLE :=
  ⟨fun a b => bytesLE_total a.data b.data⟩

instance : IsTrans String stringLE :=
  ⟨fun a b c => bytesLE_trans a.data b.data c.data⟩

instance : IsAntisymm String stringLE :=
  ⟨fun a b h1 h2 => String.ext (bytesLE_antisymm a.data b.data h1 h2)⟩

theorem sortStrings_perm (p q : List String) (h : p.Perm q) :
    sortStrings p = sortStrings q := by
  unfold sortStrings
  apply List.eq_of_perm_of_sorted (r := stringLE)
  · exact ((List.perm_insertionSort _ p).trans h).trans (List.perm_insertionSort _ q).symm
  · exact List.sorted_insertionSort _ p
  · exact List.sorted_insertionSort _ q

/-- C3 as stated fails: for the key pair `ak`/`sk` and no input parameter, the
list handed to `post` is `api_key=ak`, `secret_key=sk` and the sign entry. -/
theorem getAuthJSON_secrecy_counterexample :
    sampleExchange.option.SecretKey = "sk" ∧
    (getAuthJSON (Env.serving Json.empty utcMinuteKey) sampleExchange
        "https://www.okcoin.cn/api/v1/userinfo.do" []).1
      = [Event.post "https://www.okcoin.cn/api/v1/userinfo.do"
          ["api_key=ak", "secret_key=sk", "sign=0CC175B9C0F1B6A831C399E269772661"]] ∧
    "secret_key=sk" ∈ getAuthJSON.params (Env.serving Json.empty utcMinuteKey)
      sampleExchange [] := by
  decide

/-- C3, amended. For every input parameter list and every credentials, the one
transport call of `getAuthJSON` is a `post` of the sorted input parameters and
`api_key`, then `secret_key=<secretKey>`, then `sign=<SIGNATURE>`, the
signature being the upper-cased digest of the list up to and including the
secret entry: the sign entry is in the list, and so is the secret entry. -/
theorem getAuthJSON_hands_sign_and_secret (env : Env) (e : OKCoinCn) (url : String)
    (params : List String) :
    ∃ (handed : List String) (signature : String),
      (getAuthJSON env e url params).1 = [Event.post url handed] ∧
      signature = env.ToUpper (env.signMd5
        (sortStrings (params ++ ["api_key=" ++ e.option.AccessKey]) ++
          ["secret_key=" ++ e.option.SecretKey])) ∧
      handed = sortStrings (params ++ ["api_key=" ++ e.option.AccessKey]) ++
        ["secret_key=" ++ e.option.SecretKey, "sign=" ++ signature] ∧
      "sign=" ++ signature ∈ handed ∧
      "secret_key=" ++ e.option.SecretKey ∈ handed := by
  refine ⟨_, _, rfl, rfl, ?_, ?_, ?_⟩
  · simp [getAuthJSON.params]
  · simp [getAuthJSON.params]
  · simp [getAuthJSON.params]

/-- C7. For every credentials and every two input parameter lists that are
permutations of each other, `getAuthJSON` does the same thing: it posts the
same list, which is the input parameters and `api_key` in ascending order, then
the secret entry, then the sign entry, with the same signature. -/
theorem getAuthJSON_order_independent (env : Env) (e : OKCoinCn) (url : String)
    (p q : List String) (h : p.Perm q) :
    getAuthJSON env e url p = getAuthJSON env e url q ∧
    ∃ (sorted : List String) (signature : String),
      (getAuthJSON env e url p).1
        = [Event.post url (sorted ++ ["secret_key=" ++ e.option.SecretKey,
            "sign=" ++ signature])] ∧
      (getAuthJSON env e url q).1
        = [Event.post url (sorted ++ ["secret_key=" ++ e.option.SecretKey,
            "sign=" ++ signature])] ∧
      sorted.Perm (p ++ ["api_key=" ++ e.option.AccessKey]) ∧
      sorted.Sorted stringLE ∧
      signature = env.ToUpper (env.signMd5 (sorted ++ ["secret_key=" ++ e.option.SecretKey])) := by
  have hs : sortStrings (p ++ ["api_key=" ++ e.option.AccessKey])
      = sortStrings (q ++ ["api_key=" ++ e.option.AccessKey]) :=
    sortStrings_perm _ _ (h.append_right _)
  have hp : getAuthJSON.params env e p = getAuthJSON.params env e q := by
    simp only [getAuthJSON.params, hs]
  refine ⟨?_, sortStrings (p ++ ["api_key=" ++ e.option.AccessKey]), _, ?_, ?_, ?_, ?_, rfl⟩
  · simp only [getAuthJSON, hp]
  · rw [getAuthJSON_events]; simp [getAuthJSON.params]
  · rw [getAuthJSON_events, ← hp]; simp [getAuthJSON.params]
  · exact List.perm_insertionSort _ _
  · exact List.sorted_insertionSort _ _

/-- The witness of C7: the two parameters of an order query in both orders. -/
theorem getAuthJSON_order_independent_witness :
    ["symbol=btc_cny", "order_id=7"].Perm ["order_id=7", "symbol=btc_cny"] ∧
    (getAuthJSON (Env.serving Json.empty utcMinuteKey) sampleExchange "order_info.do"
        ["symbol=btc_cny", "order_id=7"]
      = getAuthJSON (Env.serving Json.empty utcMinuteKey) sampleExchange "order_info.do"
        ["order_id=7", "symbol=btc_cny"] ∧
    ∃ (sorted : List String) (signature : String),
      (getAuthJSON (Env.serving Json.empty utcMinuteKey) sampleExchange "order_info.do"
          ["symbol=btc_cny", "order_id=7"]).1
        = [Event.post "order_info.do"
            (sorted ++ ["secret_key=" ++ sampleExchange.option.SecretKey,
              "sign=" ++ signature])] ∧
      (getAuthJSON (Env.serving Json.empty utcMinuteKey) sampleExchange "order_info.do"
          ["order_id=7", "symbol=btc_cny"]).1
        = [Event.post "order_info.do"
            (sorted ++ ["secret_key=" ++ sampleExchange.option.SecretKey,
              "sign=" ++ signature])] ∧
      sorted.Perm (["symbol=btc_cny", "order_id=7"] ++
        ["api_key=" ++ sampleExchange.option.AccessKey]) ∧
      sorted.Sorted stringLE ∧
      signature = (Env.serving Json.empty utcMinuteKey).ToUpper
        ((Env.serving Json.empty utcMinuteKey).signMd5
          (sorted ++ ["secret_key=" ++ sampleExchange.option.SecretKey]))) :=
  ⟨List.Perm.swap _ _ _,
    getAuthJSON_order_independent (Env.serving Json.empty utcMinuteKey) sampleExchange
      "order_info.do" ["symbol=btc_cny", "order_id=7"] ["order_id=7", "symbol=btc_cny"]
      (List.Perm.swap _ _ _)⟩

/-! ## Order types -/

theorem not_hasKey_of_first (key param : String) (c d : Char) (cs ds : List Char)
    (hk : key.data = c :: cs) (hp : param.data = d :: ds) (h : c ≠ d) :
    ¬ hasKey key param := by
  unfold hasKey
  rw [hk, hp]
  intro heq
  simp only [List.take_succ_cons, List.cons_append, List.cons.injEq] at heq
  exact h heq.1.symm

theorem not_price_symbol (x : String) : ¬ hasKey "price" ("symbol=" ++ x) :=
  not_hasKey_of_first "price" ("symbol=" ++ x) 'p' 's' "rice".data ("ymbol=".data ++ x.data)
    rfl (by rw [String.data_append]; rfl) (by decide)

theorem not_price_amount (x : String) : ¬ hasKey "price" ("amount=" ++ x) :=
  not_hasKey_of_first "price" ("amount=" ++ x) 'p' 'a' "rice".data ("mount=".data ++ x.data)
    rfl (by rw [String.data_append]; rfl) (by decide)

theorem not_amount_symbol (x : String) : ¬ hasKey "amount" ("symbol=" ++ x) :=
  not_hasKey_of_first "amount" ("symbol=" ++ x) 'a' 's' "mount".data ("ymbol=".data ++ x.data)
    rfl (by rw [String.data_append]; rfl) (by decide)

theorem not_amount_price (x : String) : ¬ hasKey "amount" ("price=" ++ x) :=
  not_hasKey_of_first "amount" ("price=" ++ x) 'a' 'p' "mount".data ("rice=".data ++ x.data)
    rfl (by rw [String.data_append]; rfl) (by decide)

/-- C6 as stated fails for `Buy`: a market buy of 1000 (price 0) sends the
parameter `price=1000`, so the list does hold a parameter with key `price`. -/
theorem Buy_market_counterexample :
    Buy.params (Env.serving Json.empty utcMinuteKey) sampleExchange "BTC" 0 1000
      = ["symbol=btc_cny", "type=buy_market", "price=1000"] ∧
    hasKey "price" "price=1000" ∧
    ¬ (∀ p ∈ Buy.params (Env.serving Json.empty utcMinuteKey) sampleExchange "BTC" 0 1000,
        ¬ hasKey "price" p) := by
  decide

/-- C6, amended. For every recognised stock, every amount and every price, the
first thing `Buy` and `Sell` do is post the signed form of their parameter
list. If `price > 0` the list carries the limit type (`type=buy`, `type=sell`)
and the parameter `price=<price>`. If `price <= 0`, `Sell` carries
`type=sell_market` and no parameter with key `price`, while `Buy` carries
`type=buy_market` and exactly one parameter with key `price`, whose value is
the amount, and no parameter with key `amount`. -/
theorem Buy_Sell_order_type (env : Env) (e : OKCoinCn) (stockType : String)
    (price amount : ℚ) (hstock : mapHas e.stockMap stockType = true) :
    (Buy env e stockType price amount).1.head?
      = some (Event.post (e.host ++ "trade.do")
          (getAuthJSON.params env e (Buy.params env e stockType price amount))) ∧
    (Sell env e stockType price amount).1.head?
      = some (Event.post (e.host ++ "trade.do")
          (getAuthJSON.params env e (Sell.params env e stockType price amount))) ∧
    (price > 0 →
      Buy.params env e stockType price amount
        = ["symbol=" ++ mapGet e.stockMap stockType ++ "_cny", "price=" ++ env.Sprint price,
            "type=buy", "amount=" ++ env.Sprint amount] ∧
      Sell.params env e stockType price amount
        = ["symbol=" ++ mapGet e.stockMap stockType ++ "_cny", "amount=" ++ env.Sprint amount,
            "price=" ++ env.Sprint price, "type=sell"] ∧
      "type=buy" ∈ Buy.params env e stockType price amount ∧
      "price=" ++ env.Sprint price ∈ Buy.params env e stockType price amount ∧
      "type=sell" ∈ Sell.params env e stockType price amount ∧
      "price=" ++ env.Sprint price ∈ Sell.params env e stockType price amount) ∧
    (price ≤ 0 →
      Sell.params env e stockType price amount
        = ["symbol=" ++ mapGet e.stockMap stockType ++ "_cny", "amount=" ++ env.Sprint amount,
            "type=sell_market"] ∧
      (∀ p ∈ Sell.params env e stockType price amount, ¬ hasKey "price" p) ∧
      Buy.params env e stockType price amount
        = ["symbol=" ++ mapGet e.stockMap stockType ++ "_cny", "type=buy_market",
            "price=" ++ env.Sprint amount] ∧
      (∀ p ∈ Buy.params env e stockType price amount,
        hasKey "price" p → p = "price=" ++ env.Sprint amount) ∧
      (∀ p ∈ Buy.params env e stockType price amount, ¬ hasKey "amount" p)) := by
  refine ⟨?_, ?_, ?_, ?_⟩
  · unfold Buy
    simp only [hstock, not_true_eq_false, if_false, getAuthJSON]
    split
    · rfl
    · split <;> rfl
  · unfold Sell
    simp only [hstock, not_true_eq_false, if_false, getAuthJSON]
    split
    · rfl
    · split <;> rfl
  · intro hpos
    have hb : Buy.params env e stockType price amount
        = ["symbol=" ++ mapGet e.stockMap stockType ++ "_cny", "price=" ++ env.Sprint price,
            "type=buy", "amount=" ++ env.Sprint amount] := by
      simp [Buy.params, hpos]
    have hs : Sell.params env e stockType price amount
        = ["symbol=" ++ mapGet e.stockMap stockType ++ "_cny", "amount=" ++ env.Sprint amount,
            "price=" ++ env.Sprint price, "type=sell"] := by
      simp [Sell.params, hpos]
    refine ⟨hb, hs, ?_, ?_, ?_, ?_⟩
    · rw [hb]; simp
    · rw [hb]; simp
    · rw [hs]; simp
    · rw [hs]; simp
  · intro hle
    have hnot : ¬ price > 0 := not_lt.mpr hle
    have hb : Buy.params env e stockType price amount
        = ["symbol=" ++ mapGet e.stockMap stockType ++ "_cny", "type=buy_market",
            "price=" ++ env.Sprint amount] := by
      simp [Buy.params, hnot]
    have hs : Sell.params env e stockType price amount
        = ["symbol=" ++ mapGet e.stockMap stockType ++ "_cny", "amount=" ++ env.Sprint amount,
            "type=sell_market"] := by
      simp [Sell.params, hnot]
    refine ⟨hs, ?_, hb, ?_, ?_⟩
    · intro p hp
      rw [hs] at hp
      simp only [List.mem_cons, List.mem_singleton, List.not_mem_nil, or_false] at hp
      rcases hp with rfl | rfl | rfl
      · rw [String.append_assoc]; exact not_price_symbol _
      · exact not_price_amount _
      · decide
    · intro p hp hkey
      rw [hb] at hp
      simp only [List.mem_cons, List.mem_singleton, List.not_mem_nil, or_false] at hp
      rcases hp with rfl | rfl | rfl
      · rw [String.append_assoc] at hkey; exact absurd hkey (not_price_symbol _)
      · exact absurd hkey (by decide)
      · rfl
    · intro p hp
      rw [hb] at hp
      simp only [List.mem_cons, List.mem_singleton, List.not_mem_nil, or_false] at hp
      rcases hp with rfl | rfl | rfl
      · rw [String.append_assoc]; exact not_amount_symbol _
      · decide
      · exact not_amount_price _

/-- The witness of C6: the sample exchange and the stock `BTC`. -/
theorem Buy_Sell_order_type_witness :
    mapHas sampleExchange.stockMap "BTC" = true ∧
    Buy.params (Env.serving Json.empty utcMinuteKey) sampleExchange "BTC" 0 1000
      = ["symbol=" ++ mapGet sampleExchange.stockMap "BTC" ++ "_cny", "type=buy_market",
          "price=" ++ (Env.serving Json.empty utcMinuteKey).Sprint 1000] ∧
    Sell.params (Env.serving Json.empty utcMinuteKey) sampleExchange "BTC" 0 1000
      = ["symbol=" ++ mapGet sampleExchange.stockMap "BTC" ++ "_cny",
          "amount=" ++ (Env.serving Json.empty utcMinuteKey).Sprint 1000, "type=sell_market"] :=
  ⟨by decide,
    ((Buy_Sell_order_type (Env.serving Json.empty utcMinuteKey) sampleExchange "BTC" 0 1000
      (by decide)).2.2.2 (by decide)).2.2.1,
    ((Buy_Sell_order_type (Env.serving Json.empty utcMinuteKey) sampleExchange "BTC" 0 1000
      (by decide)).2.2.2 (by decide)).1⟩

/-! ## Symbol validation -/

theorem unrecognised_symbol_guarded (env : Env) (e : OKCoinCn) (stockType : String)
    (price amount : ℚ) (period : String) (sizes : List Int)
    (hstock : mapHas e.stockMap stockType = false) :
    Buy env e stockType price amount = ([Event.log "error" 0 0], "") ∧
    Sell env e stockType price amount = ([Event.log "error" 0 0], "") ∧
    GetOrders env e stockType = ([Event.log "error" 0 0], []) ∧
    GetTrades env e stockType = ([Event.log "error" 0 0], []) ∧
    GetTicker env e stockType sizes = ([Event.log "error" 0 0], none) ∧
    GetRecords env e stockType period sizes = ([Event.log "error" 0 0], some (e, [])) := by
  simp [Buy, Sell, GetOrders, GetTrades, GetTicker, GetRecords, hstock]

theorem unrecognised_period_guarded (env : Env) (e : OKCoinCn) (stockType period : String)
    (sizes : List Int) (hperiod : mapHas e.periodMap period = false) :
    GetRecords env e stockType period sizes = ([Event.log "error" 0 0], some (e, [])) := by
  unfold GetRecords
  split
  · rfl
  · simp [hperiod]

/-- C4. `GetOrder` and `CancelOrder` have no symbol check: for the stock `XYZ`,
which is not a key of the symbol table, each of them posts a signed request for
the symbol `_cny`, and when the exchange accepts it `GetOrder` returns an order
and `CancelOrder` returns true. -/
theorem GetOrder_CancelOrder_unchecked_symbol :
    mapHas sampleExchange.stockMap "XYZ" = false ∧
    (GetOrder (Env.serving acceptedOf utcMinuteKey) sampleExchange "XYZ" "7").1.any
      Event.isTransport = true ∧
    (CancelOrder (Env.serving acceptedOf utcMinuteKey) sampleExchange
        { ID := "7", Price := 1, Amount := 2, DealAmount := 0, OrderType := 1,
          StockType := "XYZ" }).1.any Event.isTransport = true ∧
    GetOrder (Env.serving acceptedOf utcMinuteKey) sampleExchange "XYZ" "7"
      = ([Event.post "https://www.okcoin.cn/api/v1/order_info.do"
            ["api_key=ak", "order_id=7", "symbol=_cny", "secret_key=sk",
              "sign=0CC175B9C0F1B6A831C399E269772661"]],
          some { ID := "7", Price := 1, Amount := 2, DealAmount := 0, OrderType := 1,
                 StockType := "XYZ" }) ∧
    CancelOrder (Env.serving acceptedOf utcMinuteKey) sampleExchange
        { ID := "7", Price := 1, Amount := 2, DealAmount := 0, OrderType := 1,
          StockType := "XYZ" }
      = ([Event.post "https://www.okcoin.cn/api/v1/cancel_order.do"
            ["api_key=ak", "order_id=7", "symbol=_cny", "secret_key=sk",
              "sign=0CC175B9C0F1B6A831C399E269772661"],
          Event.log "cancel" 0 0], true) := by
  decide

/-! ## The ticker -/

/-- C9. For every recognised stock and every depth snapshot that was fetched
and decoded and lists at least one bid and one ask, each side in descending
price order, `GetTicker` returns a ticker whose bids are the snapshot's bids,
price and amount, in the same order (non-increasing by price), whose asks are
the snapshot's asks, price and amount, in reversed order (non-decreasing by
price), whose `Buy` is the price of its first bid and whose `Sell` is the
price of its first ask, the last ask of the snapshot; `Mid` is the `float64`
half of their `float64` sum. -/
theorem GetTicker_ordering (env : Env) (e : OKCoinCn) (stockType : String)
    (sizes : List Int) (body : String) (json : Json)
    (hstock : mapHas e.stockMap stockType = true)
    (hget : env.get (GetTicker.url e stockType sizes) = .ok body)
    (hjson : env.NewJson body = .ok json)
    (hbids : json.bids.Pairwise (fun a b => a.1 ≥ b.1))
    (hasks : json.asks.Pairwise (fun a b => a.1 ≥ b.1))
    (hbid : json.bids ≠ []) (hask : json.asks ≠ []) :
    ∃ t : Ticker,
      (GetTicker env e stockType sizes).2 = some t ∧
      t.Bids = json.bids.map (fun d => ({ Price := d.1, Amount := d.2 } : MarketOrder)) ∧
      t.Asks = (json.asks.map
        (fun d => ({ Price := d.1, Amount := d.2 } : MarketOrder))).reverse ∧
      t.Bids.Pairwise (fun a b => a.Price ≥ b.Price) ∧
      t.Asks.Pairwise (fun a b => a.Price ≤ b.Price) ∧
      t.Bids.head?.map MarketOrder.Price = some t.Buy ∧
      t.Asks.head?.map MarketOrder.Price = some t.Sell ∧
      json.bids.head?.map Prod.fst = some t.Buy ∧
      json.asks.getLast?.map Prod.fst = some t.Sell ∧
      t.Mid = env.div64 (env.add64 t.Buy t.Sell) 2 := by
  obtain ⟨b, bs, hb⟩ := List.exists_cons_of_ne_nil hbid
  obtain ⟨a, as, ha⟩ : ∃ a as, json.asks.reverse = a :: as := by
    apply List.exists_cons_of_ne_nil
    simpa using hask
  have hlast : json.asks.getLast? = some a := by
    rw [← List.head?_reverse, ha]; rfl
  refine ⟨{
      Bids := json.bids.map (fun d => ({ Price := d.1, Amount := d.2 } : MarketOrder))
      Asks := json.asks.reverse.map (fun d => ({ Price := d.1, Amount := d.2 } : MarketOrder))
      Buy := b.1
      Sell := a.1
      Mid := env.div64 (env.add64 b.1 a.1) 2 }, ?_, rfl, ?_, ?_, ?_, ?_, ?_, ?_, ?_, rfl⟩
  · unfold GetTicker
    simp only [hstock, not_true_eq_false, if_false, hget, hjson]
    rw [hb, ha]
    rfl
  · simp [List.map_reverse]
  · show (json.bids.map (fun d => ({ Price := d.1, Amount := d.2 } : MarketOrder))).Pairwise
      (fun a b => a.Price ≥ b.Price)
    rw [List.pairwise_map]
    exact hbids
  · show (json.asks.reverse.map
      (fun d => ({ Price := d.1, Amount := d.2 } : MarketOrder))).Pairwise
      (fun a b => a.Price ≤ b.Price)
    rw [List.pairwise_map, List.pairwise_reverse]
    exact hasks
  · simp [hb]
  · simp [ha]
  · simp [hb]
  · simp [hlast]

/-- The witness of C9: two bids and two asks, each side highest price first. -/
theorem GetTicker_ordering_witness :
    (depthOf [(99, 1), (98, 2)] [(102, 3), (101, 4)]).bids.Pairwise (fun a b => a.1 ≥ b.1) ∧
    (depthOf [(99, 1), (98, 2)] [(102, 3), (101, 4)]).asks.Pairwise (fun a b => a.1 ≥ b.1) ∧
    ∃ t : Ticker,
      (GetTicker (Env.serving (depthOf [(99, 1), (98, 2)] [(102, 3), (101, 4)]) utcMinuteKey)
        sampleExchange "BTC" []).2 = some t ∧
      t.Bids = (depthOf [(99, 1), (98, 2)] [(102, 3), (101, 4)]).bids.map
        (fun d => ({ Price := d.1, Amount := d.2 } : MarketOrder)) ∧
      t.Asks = ((depthOf [(99, 1), (98, 2)] [(102, 3), (101, 4)]).asks.map
        (fun d => ({ Price := d.1, Amount := d.2 } : MarketOrder))).reverse ∧
      t.Bids.Pairwise (fun a b => a.Price ≥ b.Price) ∧
      t.Asks.Pairwise (fun a b => a.Price ≤ b.Price) ∧
      t.Bids.head?.map MarketOrder.Price = some t.Buy ∧
      t.Asks.head?.map MarketOrder.Price = some t.Sell ∧
      (depthOf [(99, 1), (98, 2)] [(102, 3), (101, 4)]).bids.head?.map Prod.fst = some t.Buy ∧
      (depthOf [(99, 1), (98, 2)] [(102, 3), (101, 4)]).asks.getLast?.map Prod.fst
        = some t.Sell ∧
      t.Mid = (Env.serving (depthOf [(99, 1), (98, 2)] [(102, 3), (101, 4)])
          utcMinuteKey).div64
        ((Env.serving (depthOf [(99, 1), (98, 2)] [(102, 3), (101, 4)]) utcMinuteKey).add64
          t.Buy t.Sell) 2 :=
  ⟨by decide, by decide,
    GetTicker_ordering
      (Env.serving (depthOf [(99, 1), (98, 2)] [(102, 3), (101, 4)]) utcMinuteKey)
      sampleExchange "BTC" [] "ok" (depthOf [(99, 1), (98, 2)] [(102, 3), (101, 4)])
      (by decide) rfl rfl (by decide) (by decide) (by decide) (by decide)⟩

end api
